import Mathlib

set_option linter.all false

/-! Shallow embedding of `clean-task-definition.py`, a pre-commit hook that
prunes AWS ECS task-definition JSON documents: keys ignored by the
`RegisterTaskDefinition` API and keys set to their default values
(`null` or `[]`) are removed, and files are rewritten in place when the
canonical serialization changes. -/

/-- JSON values as produced by `json.loads`.  Numbers are modelled as
integers; the pruning logic never inspects numeric values beyond identity. -/
inductive Json where
  | null : Json
  | bool : Bool → Json
  | num : Int → Json
  | str : String → Json
  | arr : List Json → Json
  | obj : List (String × Json) → Json

/-- A Python dict as an insertion-ordered association list. -/
abbrev Obj := List (String × Json)

/-- Python `k in d` for a dict `d`. -/
def containsKey : Obj → String → Bool
  | [], _ => false
  | p :: t, k => p.1 = k || containsKey t k

/-- Python `d[k]` for a dict `d`, as an option. -/
def lookupKey : Obj → String → Option Json
  | [], _ => none
  | p :: t, k => if p.1 = k then some p.2 else lookupKey t k

/-- Python `del d[k]` for a dict `d`: the binding for `k` is removed. -/
def delKey : Obj → String → Obj
  | [], _ => []
  | p :: t, k => if p.1 = k then delKey t k else p :: delKey t k

/-- Updating an existing dict binding: the binding for `k` keeps its
position, its value becomes `v`. -/
def replaceKey : Obj → String → Json → Obj
  | [], _, _ => []
  | p :: t, k, v => (if p.1 = k then (k, v) else p) :: replaceKey t k v

/-- Python `d[k] = v` for a dict `d`: an existing binding keeps its
position; a new binding is appended. -/
def setKey (d : Obj) (k : String) (v : Json) : Obj :=
  if containsKey d k then replaceKey d k v else d ++ [(k, v)]

/-- Python `x is None` on a JSON value. -/
def Json.isNone : Json → Bool
  | .null => true
  | _ => false

/-- Python `type(x) == list and len(x) == 0` on a JSON value. -/
def Json.isEmptyList : Json → Bool
  | .arr [] => true
  | _ => false

/-- Whether a JSON value is a Python dict. -/
def Json.isObj : Json → Bool
  | .obj _ => true
  | _ => false

/-- Python `iter(x)` raises TypeError on these values (`None`, booleans,
numbers); dicts, lists and strings are iterable. -/
def Json.isNotIterable : Json → Bool
  | .null => true
  | .bool _ => true
  | .num _ => true
  | _ => false

/-- Exceptions the script can raise while cleaning a parsed document. -/
inductive PyErr where
  | keyError : String → PyErr
  | typeError : PyErr

/-- Substring test on character lists, modelling Python `sub in s`. -/
def infixCheck (ns : List Char) : List Char → Bool
  | [] => ns.isEmpty
  | c :: t => List.isPrefixOf ns (c :: t) || infixCheck ns t

/-- Python `k in s` for strings: substring containment. -/
def pyContainsStr (k s : String) : Bool :=
  infixCheck k.toList s.toList

/-- Python `k in v` for a string key `k` and an arbitrary value `v`:
dict key membership, list element equality, string substring; TypeError
for values with no `__contains__`/`__iter__`. -/
def pyContains (v : Json) (k : String) : Except PyErr Bool :=
  match v with
  | .obj d => .ok (containsKey d k)
  | .arr xs => .ok (xs.any (fun x => match x with | .str s => s == k | _ => false))
  | .str s => .ok (pyContainsStr k s)
  | _ => .error PyErr.typeError

/-- Python `v[k]` for a string key `k`: dict lookup (KeyError when absent);
TypeError on any other value (string/list indices must be integers). -/
def pyGetItem (v : Json) (k : String) : Except PyErr Json :=
  match v with
  | .obj d =>
    match lookupKey d k with
    | some x => .ok x
    | none => .error (PyErr.keyError k)
  | _ => .error PyErr.typeError

/-- Python `del v[k]` for a string key `k`: dict deletion; TypeError on
any other value. -/
def pyDelItem (v : Json) (k : String) : Except PyErr Json :=
  match v with
  | .obj d => .ok (Json.obj (delKey d k))
  | _ => .error PyErr.typeError

/-- Python `v[k] = x` for a string key `k`: dict update; TypeError on any
other value. -/
def pySetItem (v : Json) (k : String) (x : Json) : Except PyErr Json :=
  match v with
  | .obj d => .ok (Json.obj (setKey d k x))
  | _ => .error PyErr.typeError

/-- Python iteration over a value: a list yields its elements, a string its
characters (as one-character strings), a dict its keys; other values raise
TypeError. -/
def pyIter (v : Json) : Except PyErr (List Json) :=
  match v with
  | .arr xs => .ok xs
  | .str s => .ok (s.toList.map (fun c => Json.str (String.singleton c)))
  | .obj d => .ok (d.map (fun p => Json.str p.1))
  | _ => .error PyErr.typeError

/-- One iteration of `_clean_ignored_keys`: `if k in d: del d[k]`. -/
def ignoredStep (d : Json) (k : String) : Except PyErr Json := do
  let c ← pyContains d k
  if c then pyDelItem d k else pure d

/-- One iteration of `_clean_none_default_keys`:
`if k in d and d[k] is None: del d[k]`. -/
def noneDefaultStep (d : Json) (k : String) : Except PyErr Json := do
  let c ← pyContains d k
  if c then do
    let x ← pyGetItem d k
    if x.isNone then pyDelItem d k else pure d
  else pure d

/-- One iteration of `_clean_empty_list_default_keys`:
`if k in d and type(d[k]) == list and len(d[k]) == 0: del d[k]`. -/
def emptyListDefaultStep (d : Json) (k : String) : Except PyErr Json := do
  let c ← pyContains d k
  if c then do
    let x ← pyGetItem d k
    if x.isEmptyList then pyDelItem d k else pure d
  else pure d

namespace DictCleaner

/-- `DictCleaner.keys_ignored` class default, inherited by
`ContainerDefinitionCleaner`. -/
def keys_ignored : List String := []

/-- `DictCleaner.clean`: the three passes `_clean_ignored_keys`,
`_clean_none_default_keys`, `_clean_empty_list_default_keys` in order, with
the class's three key lists passed explicitly.  The input value is
arbitrary because callers pass whatever `json.loads` produced. -/
def clean (ign nul emp : List String) (d : Json) : Except PyErr Json := do
  let d1 ← List.foldlM ignoredStep d ign
  let d2 ← List.foldlM noneDefaultStep d1 nul
  List.foldlM emptyListDefaultStep d2 emp

/-- `_clean_ignored_keys` specialised to an actual dict. -/
def cleanIgnoredObj (keys : List String) (d : Obj) : Obj :=
  List.foldl (fun d k => if containsKey d k then delKey d k else d) d keys

/-- `_clean_none_default_keys` specialised to an actual dict. -/
def cleanNoneObj (keys : List String) (d : Obj) : Obj :=
  List.foldl (fun d k =>
    match lookupKey d k with
    | some v => if v.isNone then delKey d k else d
    | none => d) d keys

/-- `_clean_empty_list_default_keys` specialised to an actual dict. -/
def cleanEmptyListObj (keys : List String) (d : Obj) : Obj :=
  List.foldl (fun d k =>
    match lookupKey d k with
    | some v => if v.isEmptyList then delKey d k else d
    | none => d) d keys

/-- `DictCleaner.clean` specialised to an actual dict: the three passes in
order on the association list. -/
def cleanObjRules (ign nul emp : List String) (d : Obj) : Obj :=
  cleanEmptyListObj emp (cleanNoneObj nul (cleanIgnoredObj ign d))

end DictCleaner

namespace TaskDefinitionCleaner

/-- Keys ignored by the `RegisterTaskDefinition` API. -/
def keys_ignored : List String :=
  ["compatibilities", "taskDefinitionArn", "requiresAttributes", "revision",
   "status", "registeredAt", "deregisteredAt", "registeredBy"]

/-- Top-level keys whose defaults are `null`. -/
def keys_none_default : List String :=
  ["cpu", "ephemeralStorage", "executionRoleArn", "inferenceAccelerators",
   "ipcMode", "memory", "networkMode", "pidMode", "placementConstraints",
   "proxyConfiguration", "requiresCompatibilities", "tags", "taskRoleArn",
   "volumes"]

/-- Top-level keys whose defaults are `[]`. -/
def keys_empty_list_default : List String :=
  ["placementConstraints", "requiresCompatibilities", "tags", "volumes"]

end TaskDefinitionCleaner

namespace ContainerDefinitionCleaner

/-- Container-definition keys whose defaults are `null`. -/
def keys_none_default : List String :=
  ["command", "cpu", "dependsOn", "disableNetworking", "dnsSearchDomains",
   "dnsServers", "dockerLabels", "dockerSecurityOptions", "entryPoint",
   "environment", "environmentFiles", "essential", "extraHosts",
   "firelensConfiguration", "healthCheck", "hostname", "image",
   "interactive", "links", "linuxParameters", "logConfiguration", "memory",
   "memoryReservation", "mountPoints", "name", "portMappings", "privileged",
   "pseudoTerminal", "readonlyRootFilesystem", "repositoryCredentials",
   "resourceCredentials", "resourceRequirements", "secrets", "startTimeout",
   "stopTimeout", "systemControls", "ulimits", "user", "volumesFrom",
   "workingDirectory"]

/-- Container-definition keys whose defaults are `[]`. -/
def keys_empty_list_default : List String :=
  ["dependsOn", "dnsSearchDomains", "dnsServers", "dockerSecurityOptions",
   "environment", "environmentFiles", "extraHosts", "links", "mountPoints",
   "portMappings", "resourceRequirements", "secrets", "systemControls",
   "ulimits", "volumesFrom"]

/-- `ContainerDefinitionCleaner.clean`: the inherited `DictCleaner.clean`
with this class's key lists (`keys_ignored` is inherited and empty). -/
def clean (d : Json) : Except PyErr Json :=
  DictCleaner.clean DictCleaner.keys_ignored keys_none_default
    keys_empty_list_default d

end ContainerDefinitionCleaner

namespace TaskDefinitionCleaner

/-- The list comprehension
`[ContainerDefinitionCleaner.clean(c) for c in ...]`: each element is
cleaned in order, the first exception aborting the whole comprehension. -/
def cleanContainerList : List Json → Except PyErr (List Json)
  | [] => .ok []
  | x :: t => do
    let y ← ContainerDefinitionCleaner.clean x
    let ys ← cleanContainerList t
    pure (y :: ys)

/-- `TaskDefinitionCleaner.clean`: the inherited `DictCleaner.clean` with
this class's key lists, then the `containerDefinitions` entry is read,
iterated, each element cleaned with `ContainerDefinitionCleaner`, and the
entry re-assigned to the resulting list. -/
def clean (v : Json) : Except PyErr Json := do
  let v1 ← DictCleaner.clean keys_ignored keys_none_default
    keys_empty_list_default v
  let cd ← pyGetItem v1 "containerDefinitions"
  let elems ← pyIter cd
  let cleaned ← cleanContainerList elems
  pySetItem v1 "containerDefinitions" (Json.arr cleaned)

end TaskDefinitionCleaner

/-- The file system visible to the script: paths mapped to their text. -/
abbrev FS := List (String × String)

/-- Reading a file: `open(f_path).read()`; `none` models the missing-file
OSError. -/
def readFS : FS → String → Option String
  | [], _ => none
  | q :: t, p => if q.1 = p then some q.2 else readFS t p

/-- Writing a file: `open(f_path, "w").write(s)`. -/
def writeFS : FS → String → String → FS
  | [], p, s => [(p, s)]
  | q :: t, p, s => if q.1 = p then (p, s) :: writeFS t p s else q :: writeFS t p s

/-- An uncaught exception of the driver loop. -/
inductive Fatal where
  | ioError : String → Fatal
  | parseError : String → Fatal
  | pyError : PyErr → Fatal

/-- Driver state: the file system, the `changes_made` flag, and the event
log of writes actually performed (path and text of each `f.write`). -/
structure RunState where
  fs : FS
  changesMade : Bool
  writes : List (String × String)

/-- One iteration of the driver loop for path `p`: read the file, parse it
(`json.loads`), serialize the parse with the canonical settings, clean it,
serialize the result, and rewrite the file iff the two serializations
differ.  `parse` and `dumps` stand for the external collaborators
`json.loads` (with `none` the JSONDecodeError) and
`json.dumps(., indent=4, sort_keys=True)`. -/
def processFile (parse : String → Option Json) (dumps : Json → String)
    (st : RunState) (p : String) : Except Fatal RunState :=
  match readFS st.fs p with
  | none => .error (Fatal.ioError p)
  | some content =>
    match parse content with
    | none => .error (Fatal.parseError p)
    | some taskDef =>
      let taskDefStr := dumps taskDef
      match TaskDefinitionCleaner.clean taskDef with
      | .error e => .error (Fatal.pyError e)
      | .ok cleanTaskDef =>
        let cleanTaskDefStr := dumps cleanTaskDef
        if cleanTaskDefStr ≠ taskDefStr then
          .ok ⟨writeFS st.fs p cleanTaskDefStr, true,
               st.writes ++ [(p, cleanTaskDefStr)]⟩
        else .ok st

/-- Outcome of a run: normal completion via `exit(int(changes_made))`, or a
crash from an uncaught exception (CPython then exits with status 1),
carrying the state at the moment of the crash. -/
inductive RunOutcome where
  | exited : RunState → Nat → RunOutcome
  | crashed : RunState → Fatal → RunOutcome

/-- The `for f_path in sys.argv[1:]` loop followed by
`exit(int(changes_made))`. -/
def runMainAux (parse : String → Option Json) (dumps : Json → String) :
    List String → RunState → RunOutcome
  | [], st => RunOutcome.exited st (if st.changesMade then 1 else 0)
  | p :: rest, st =>
    match processFile parse dumps st p with
    | .ok st1 => runMainAux parse dumps rest st1
    | .error e => RunOutcome.crashed st e

/-- The whole `__main__` block on a given argument list and file system:
`changes_made = False`, the loop, the final `exit`. -/
def runMain (parse : String → Option Json) (dumps : Json → String)
    (args : List String) (fs : FS) : RunOutcome :=
  runMainAux parse dumps args ⟨fs, false, []⟩

/-- The process exit status of an outcome: the `exit` argument on normal
completion, 1 for an uncaught exception. -/
def exitCode : RunOutcome → Nat
  | RunOutcome.exited _ c => c
  | RunOutcome.crashed _ _ => 1

/-! Basic lemmas about the dict operations. -/

theorem lookupKey_delKey (d : Obj) (k k' : String) :
    lookupKey (delKey d k) k' = if k' = k then none else lookupKey d k' := by
  induction d with
  | nil => simp [delKey, lookupKey]
  | cons p t ih =>
    by_cases hpk : p.1 = k
    · by_cases hk : k' = k
      · simp_all [delKey, lookupKey]
      · have hkk : ¬ k = k' := fun h => hk h.symm
        simp_all [delKey, lookupKey]
    · by_cases hk : k' = k
      · simp_all [delKey, lookupKey]
      · simp_all [delKey, lookupKey]

theorem containsKey_eq (d : Obj) (k : String) :
    containsKey d k = (lookupKey d k).isSome := by
  induction d with
  | nil => simp [containsKey, lookupKey]
  | cons p t ih =>
    by_cases hpk : p.1 = k <;> simp_all [containsKey, lookupKey]

theorem containsKey_replaceKey (d : Obj) (k k' : String) (v : Json) :
    containsKey (replaceKey d k v) k' = containsKey d k' := by
  induction d with
  | nil => simp [replaceKey]
  | cons p t ih =>
    by_cases hpk : p.1 = k <;> simp_all [replaceKey, containsKey]

theorem lookupKey_replaceKey_self (d : Obj) (k : String) (v : Json)
    (h : containsKey d k = true) : lookupKey (replaceKey d k v) k = some v := by
  induction d with
  | nil => simp [containsKey] at h
  | cons p t ih =>
    by_cases hpk : p.1 = k <;> simp_all [containsKey, replaceKey, lookupKey]

theorem lookupKey_replaceKey_ne (d : Obj) (k k' : String) (v : Json)
    (h : ¬ k' = k) : lookupKey (replaceKey d k v) k' = lookupKey d k' := by
  induction d with
  | nil => simp [replaceKey]
  | cons p t ih =>
    by_cases hpk : p.1 = k
    · have : ¬ k = k' := fun hkk => h hkk.symm
      simp_all [replaceKey, lookupKey]
    · simp_all [replaceKey, lookupKey]

theorem lookupKey_append_single_self (d : Obj) (k : String) (v : Json)
    (h : containsKey d k = false) : lookupKey (d ++ [(k, v)]) k = some v := by
  induction d with
  | nil => simp [lookupKey]
  | cons p t ih =>
    by_cases hpk : p.1 = k <;> simp_all [containsKey, lookupKey]

theorem lookupKey_append_single_ne (d : Obj) (k k' : String) (v : Json)
    (h : ¬ k' = k) : lookupKey (d ++ [(k, v)]) k' = lookupKey d k' := by
  induction d with
  | nil =>
    have : ¬ k = k' := fun hkk => h hkk.symm
    simp_all [lookupKey]
  | cons p t ih =>
    by_cases hpk : p.1 = k' <;> simp_all [lookupKey]

theorem lookupKey_setKey_self (d : Obj) (k : String) (v : Json) :
    lookupKey (setKey d k v) k = some v := by
  rw [setKey]
  cases hc : containsKey d k
  · simp [lookupKey_append_single_self d k v hc]
  · simp [lookupKey_replaceKey_self d k v hc]

theorem lookupKey_setKey_ne (d : Obj) (k k' : String) (v : Json)
    (h : ¬ k' = k) : lookupKey (setKey d k v) k' = lookupKey d k' := by
  rw [setKey]
  cases hc : containsKey d k
  · simp [lookupKey_append_single_ne d k k' v h]
  · simp [lookupKey_replaceKey_ne d k k' v h]

theorem replaceKey_replaceKey (d : Obj) (k : String) (v : Json) :
    replaceKey (replaceKey d k v) k v = replaceKey d k v := by
  induction d with
  | nil => simp [replaceKey]
  | cons p t ih =>
    by_cases hpk : p.1 = k <;> simp_all [replaceKey]

theorem containsKey_append_single_self (d : Obj) (k : String) (v : Json) :
    containsKey (d ++ [(k, v)]) k = true := by
  induction d with
  | nil => simp [containsKey]
  | cons p t ih => simp_all [containsKey]

theorem replaceKey_append_single (d : Obj) (k : String) (v : Json)
    (h : containsKey d k = false) :
    replaceKey (d ++ [(k, v)]) k v = d ++ [(k, v)] := by
  induction d with
  | nil => simp [replaceKey]
  | cons p t ih =>
    by_cases hpk : p.1 = k <;> simp_all [containsKey, replaceKey]

theorem setKey_setKey (d : Obj) (k : String) (v : Json) :
    setKey (setKey d k v) k v = setKey d k v := by
  cases hc : containsKey d k
  · have h1 : setKey d k v = d ++ [(k, v)] := by simp [setKey, hc]
    rw [h1, setKey, if_pos (containsKey_append_single_self d k v)]
    exact replaceKey_append_single d k v hc
  · have h1 : setKey d k v = replaceKey d k v := by simp [setKey, hc]
    have h2 : containsKey (replaceKey d k v) k = true := by
      rw [containsKey_replaceKey]; exact hc
    rw [h1, setKey, if_pos h2, replaceKey_replaceKey]

/-- The removal condition of the none-default pass, as a function of the
looked-up value. -/
def noneOptCheck : Option Json → Bool
  | some v => v.isNone
  | none => false

/-- The removal condition of the empty-list-default pass, as a function of
the looked-up value. -/
def emptyListOptCheck : Option Json → Bool
  | some v => v.isEmptyList
  | none => false

/-- A generic conditional-removal pass: each of the three dict-cleaning
passes is an instance for a suitable condition `P` on the looked-up value. -/
def condClean (P : Option Json → Bool) (keys : List String) (d : Obj) : Obj :=
  List.foldl (fun d k => if P (lookupKey d k) then delKey d k else d) d keys

theorem foldlFunCongr {α β : Type} (f g : α → β → α) (h : ∀ a b, f a b = g a b)
    (l : List β) (init : α) : List.foldl f init l = List.foldl g init l := by
  induction l generalizing init with
  | nil => rfl
  | cons b t ih => rw [List.foldl_cons, List.foldl_cons, h, ih]

theorem cleanIgnoredObj_eq (keys : List String) (d : Obj) :
    DictCleaner.cleanIgnoredObj keys d = condClean Option.isSome keys d := by
  rw [DictCleaner.cleanIgnoredObj, condClean]
  apply foldlFunCongr
  intro a b
  rw [containsKey_eq]

theorem cleanNoneObj_eq (keys : List String) (d : Obj) :
    DictCleaner.cleanNoneObj keys d = condClean noneOptCheck keys d := by
  rw [DictCleaner.cleanNoneObj, condClean]
  apply foldlFunCongr
  intro a b
  cases hl : lookupKey a b with
  | none => simp [noneOptCheck]
  | some v => cases hv : v.isNone <;> simp [noneOptCheck, hl, hv]

theorem cleanEmptyListObj_eq (keys : List String) (d : Obj) :
    DictCleaner.cleanEmptyListObj keys d = condClean emptyListOptCheck keys d := by
  rw [DictCleaner.cleanEmptyListObj, condClean]
  apply foldlFunCongr
  intro a b
  cases hl : lookupKey a b with
  | none => simp [emptyListOptCheck]
  | some v => cases hv : v.isEmptyList <;> simp [emptyListOptCheck, hl, hv]

theorem lookupKey_condClean (P : Option Json → Bool) (hP : P none = false)
    (keys : List String) (d : Obj) (k : String) :
    lookupKey (condClean P keys d) k =
      if k ∈ keys ∧ P (lookupKey d k) = true then none else lookupKey d k := by
  induction keys generalizing d with
  | nil => simp [condClean]
  | cons k0 ks ih =>
    rw [condClean, List.foldl_cons]
    have hstep : List.foldl
        (fun d k => if P (lookupKey d k) then delKey d k else d)
        (if P (lookupKey d k0) then delKey d k0 else d) ks
        = condClean P ks (if P (lookupKey d k0) then delKey d k0 else d) := rfl
    rw [hstep, ih]
    cases hP0 : P (lookupKey d k0)
    · simp only [Bool.false_eq_true, if_false]
      by_cases hk : k = k0
      · subst hk
        simp [hP0]
      · simp [List.mem_cons, hk]
    · simp only [if_true]
      rw [lookupKey_delKey]
      by_cases hk : k = k0
      · subst hk
        simp [hP, hP0]
      · simp [List.mem_cons, hk, lookupKey_delKey]

theorem condClean_self (P : Option Json → Bool) (keys : List String) (d : Obj)
    (h : ∀ k ∈ keys, P (lookupKey d k) = false) : condClean P keys d = d := by
  induction keys with
  | nil => rfl
  | cons k0 ks ih =>
    rw [condClean, List.foldl_cons]
    have h0 : P (lookupKey d k0) = false := h k0 (List.mem_cons_self k0 ks)
    rw [h0]
    simp only [Bool.false_eq_true, if_false]
    exact ih (fun k hk => h k (List.mem_cons_of_mem k0 hk))

theorem lookupKey_cleanObjRules (ign nul emp : List String) (d : Obj) (k : String) :
    lookupKey (DictCleaner.cleanObjRules ign nul emp d) k =
      if k ∈ ign then none
      else if k ∈ nul ∧ noneOptCheck (lookupKey d k) = true then none
      else if k ∈ emp ∧ emptyListOptCheck (lookupKey d k) = true then none
      else lookupKey d k := by
  rw [DictCleaner.cleanObjRules, cleanEmptyListObj_eq, cleanNoneObj_eq,
    cleanIgnoredObj_eq]
  rw [lookupKey_condClean emptyListOptCheck rfl,
    lookupKey_condClean noneOptCheck rfl,
    lookupKey_condClean Option.isSome rfl]
  cases hl : lookupKey d k with
  | none =>
    by_cases h1 : k ∈ ign <;> by_cases h2 : k ∈ nul <;> by_cases h3 : k ∈ emp <;>
      simp [h1, h2, h3, noneOptCheck, emptyListOptCheck]
  | some v =>
    by_cases h1 : k ∈ ign
    · simp [h1, noneOptCheck, emptyListOptCheck]
    · by_cases h2 : k ∈ nul <;> by_cases h3 : k ∈ emp <;>
        cases hn : v.isNone <;> cases he : v.isEmptyList <;>
        simp_all [noneOptCheck, emptyListOptCheck]

theorem cleanObjRules_self (ign nul emp : List String) (d : Obj)
    (h1 : ∀ k ∈ ign, lookupKey d k = none)
    (h2 : ∀ k ∈ nul, noneOptCheck (lookupKey d k) = false)
    (h3 : ∀ k ∈ emp, emptyListOptCheck (lookupKey d k) = false) :
    DictCleaner.cleanObjRules ign nul emp d = d := by
  rw [DictCleaner.cleanObjRules, cleanEmptyListObj_eq, cleanNoneObj_eq,
    cleanIgnoredObj_eq]
  rw [condClean_self Option.isSome ign d (fun k hk => by rw [h1 k hk]; rfl)]
  rw [condClean_self noneOptCheck nul d h2]
  exact condClean_self emptyListOptCheck emp d h3

theorem lookupKey_cleanObjRules_of_ign (ign nul emp : List String) (d : Obj)
    (k : String) (h : k ∈ ign) :
    lookupKey (DictCleaner.cleanObjRules ign nul emp d) k = none := by
  rw [lookupKey_cleanObjRules]
  simp [h]

theorem noneOptCheck_cleanObjRules (ign nul emp : List String) (d : Obj)
    (k : String) (h : k ∈ nul) :
    noneOptCheck (lookupKey (DictCleaner.cleanObjRules ign nul emp d) k) = false := by
  rw [lookupKey_cleanObjRules]
  by_cases h1 : k ∈ ign
  · simp [h1, noneOptCheck]
  · cases hn : noneOptCheck (lookupKey d k)
    · by_cases h3 : k ∈ emp ∧ emptyListOptCheck (lookupKey d k) = true
      · simp [h1, hn, h3, noneOptCheck]
      · simp [h1, hn, h3]
    · simp [h1, h, hn, noneOptCheck]

theorem emptyListOptCheck_cleanObjRules (ign nul emp : List String) (d : Obj)
    (k : String) (h : k ∈ emp) :
    emptyListOptCheck
      (lookupKey (DictCleaner.cleanObjRules ign nul emp d) k) = false := by
  rw [lookupKey_cleanObjRules]
  by_cases h1 : k ∈ ign
  · simp [h1, emptyListOptCheck]
  · cases he : emptyListOptCheck (lookupKey d k)
    · by_cases h2 : k ∈ nul ∧ noneOptCheck (lookupKey d k) = true
      · simp [h1, he, h2, emptyListOptCheck]
      · simp [h1, he, h2]
    · by_cases h2 : k ∈ nul ∧ noneOptCheck (lookupKey d k) = true
      · simp [h1, he, h2, emptyListOptCheck]
      · simp [h1, h, he, h2, emptyListOptCheck]

theorem cleanObjRules_idem (ign nul emp : List String) (d : Obj) :
    DictCleaner.cleanObjRules ign nul emp (DictCleaner.cleanObjRules ign nul emp d)
      = DictCleaner.cleanObjRules ign nul emp d :=
  cleanObjRules_self ign nul emp _
    (fun k hk => lookupKey_cleanObjRules_of_ign ign nul emp d k hk)
    (fun k hk => noneOptCheck_cleanObjRules ign nul emp d k hk)
    (fun k hk => emptyListOptCheck_cleanObjRules ign nul emp d k hk)

theorem exceptBindOk {α β : Type} (a : α) (f : α → Except PyErr β) :
    (Except.ok a >>= f) = f a := rfl

theorem exceptPure {α : Type} (a : α) : (pure a : Except PyErr α) = Except.ok a := rfl

theorem exceptBindErr {α β : Type} (e : PyErr) (f : α → Except PyErr β) :
    ((Except.error e : Except PyErr α) >>= f) = Except.error e := rfl

theorem ignoredStep_obj (d : Obj) (k : String) :
    ignoredStep (Json.obj d) k =
      .ok (Json.obj (if containsKey d k then delKey d k else d)) := by
  cases hc : containsKey d k <;>
    simp [ignoredStep, pyContains, pyDelItem, hc, exceptBindOk, exceptPure]

theorem noneDefaultStep_obj (d : Obj) (k : String) :
    noneDefaultStep (Json.obj d) k =
      .ok (Json.obj (match lookupKey d k with
        | some v => if v.isNone then delKey d k else d
        | none => d)) := by
  cases hl : lookupKey d k with
  | none =>
    have hc : containsKey d k = false := by rw [containsKey_eq, hl]; rfl
    simp [noneDefaultStep, pyContains, hc, hl, exceptBindOk, exceptPure]
  | some v =>
    have hc : containsKey d k = true := by rw [containsKey_eq, hl]; rfl
    cases hv : v.isNone <;>
      simp [noneDefaultStep, pyContains, pyGetItem, pyDelItem, hc, hl, hv,
        exceptBindOk, exceptPure]

theorem emptyListDefaultStep_obj (d : Obj) (k : String) :
    emptyListDefaultStep (Json.obj d) k =
      .ok (Json.obj (match lookupKey d k with
        | some v => if v.isEmptyList then delKey d k else d
        | none => d)) := by
  cases hl : lookupKey d k with
  | none =>
    have hc : containsKey d k = false := by rw [containsKey_eq, hl]; rfl
    simp [emptyListDefaultStep, pyContains, hc, hl, exceptBindOk, exceptPure]
  | some v =>
    have hc : containsKey d k = true := by rw [containsKey_eq, hl]; rfl
    cases hv : v.isEmptyList <;>
      simp [emptyListDefaultStep, pyContains, pyGetItem, pyDelItem, hc, hl, hv,
        exceptBindOk, exceptPure]

theorem foldlM_obj (step : Json → String → Except PyErr Json)
    (f : Obj → String → Obj)
    (hstep : ∀ d k, step (Json.obj d) k = .ok (Json.obj (f d k)))
    (keys : List String) (d : Obj) :
    List.foldlM step (Json.obj d) keys = .ok (Json.obj (List.foldl f d keys)) := by
  induction keys generalizing d with
  | nil => rfl
  | cons k0 ks ih =>
    rw [List.foldlM_cons, hstep, exceptBindOk, ih, List.foldl_cons]

theorem clean_obj_eq (ign nul emp : List String) (d : Obj) :
    DictCleaner.clean ign nul emp (Json.obj d) =
      .ok (Json.obj (DictCleaner.cleanObjRules ign nul emp d)) := by
  rw [DictCleaner.clean,
    foldlM_obj ignoredStep _ ignoredStep_obj ign d, exceptBindOk,
    foldlM_obj noneDefaultStep _ noneDefaultStep_obj nul _, exceptBindOk,
    foldlM_obj emptyListDefaultStep _ emptyListDefaultStep_obj emp _]
  rfl

theorem ignoredStep_nonObj (v : Json) (k : String) (w : Json)
    (hv : v.isObj = false) (h : ignoredStep v k = .ok w) : w = v := by
  cases v with
  | obj d => simp [Json.isObj] at hv
  | str s =>
    cases hc : pyContainsStr k s <;>
      simp [ignoredStep, pyContains, pyDelItem, hc, exceptBindOk,
        exceptPure] at h <;> exact h.symm
  | arr xs =>
    cases hc : xs.any (fun x => match x with | .str s => s == k | _ => false) <;>
      simp [ignoredStep, pyContains, pyDelItem, hc, exceptBindOk,
        exceptPure] at h <;> exact h.symm
  | null => simp [ignoredStep, pyContains, exceptBindErr] at h
  | bool b => simp [ignoredStep, pyContains, exceptBindErr] at h
  | num n => simp [ignoredStep, pyContains, exceptBindErr] at h

theorem noneDefaultStep_nonObj (v : Json) (k : String) (w : Json)
    (hv : v.isObj = false) (h : noneDefaultStep v k = .ok w) : w = v := by
  cases v with
  | obj d => simp [Json.isObj] at hv
  | str s =>
    cases hc : pyContainsStr k s <;>
      simp [noneDefaultStep, pyContains, pyGetItem, hc, exceptBindOk,
        exceptBindErr, exceptPure] at h <;> exact h.symm
  | arr xs =>
    cases hc : xs.any (fun x => match x with | .str s => s == k | _ => false) <;>
      simp [noneDefaultStep, pyContains, pyGetItem, hc, exceptBindOk,
        exceptBindErr, exceptPure] at h <;> exact h.symm
  | null => simp [noneDefaultStep, pyContains, exceptBindErr] at h
  | bool b => simp [noneDefaultStep, pyContains, exceptBindErr] at h
  | num n => simp [noneDefaultStep, pyContains, exceptBindErr] at h

theorem emptyListDefaultStep_nonObj (v : Json) (k : String) (w : Json)
    (hv : v.isObj = false) (h : emptyListDefaultStep v k = .ok w) : w = v := by
  cases v with
  | obj d => simp [Json.isObj] at hv
  | str s =>
    cases hc : pyContainsStr k s <;>
      simp [emptyListDefaultStep, pyContains, pyGetItem, hc, exceptBindOk,
        exceptBindErr, exceptPure] at h <;> exact h.symm
  | arr xs =>
    cases hc : xs.any (fun x => match x with | .str s => s == k | _ => false) <;>
      simp [emptyListDefaultStep, pyContains, pyGetItem, hc, exceptBindOk,
        exceptBindErr, exceptPure] at h <;> exact h.symm
  | null => simp [emptyListDefaultStep, pyContains, exceptBindErr] at h
  | bool b => simp [emptyListDefaultStep, pyContains, exceptBindErr] at h
  | num n => simp [emptyListDefaultStep, pyContains, exceptBindErr] at h

theorem foldlM_nonObj (step : Json → String → Except PyErr Json)
    (hstep : ∀ v k w, v.isObj = false → step v k = .ok w → w = v)
    (keys : List String) : ∀ (v w : Json), v.isObj = false →
      List.foldlM step v keys = .ok w → w = v := by
  induction keys with
  | nil =>
    intro v w _ h
    exact (Except.ok.injEq _ _ ▸ congrArg id h) ▸ by
      cases h' : (Except.ok v : Except PyErr Json) <;> simp_all
  | cons k0 ks ih =>
    intro v w hv h
    rw [List.foldlM_cons] at h
    cases hs : step v k0 with
    | error e => rw [hs, exceptBindErr] at h; exact absurd h (by simp)
    | ok v1 =>
      have hv1 : v1 = v := hstep v k0 v1 hv hs
      rw [hs, exceptBindOk, hv1] at h
      exact ih v w hv h

theorem clean_nonObj (ign nul emp : List String) (v w : Json)
    (hv : v.isObj = false) (h : DictCleaner.clean ign nul emp v = .ok w) :
    w = v := by
  rw [DictCleaner.clean] at h
  cases h1 : List.foldlM ignoredStep v ign with
  | error e => rw [h1, exceptBindErr] at h; exact absurd h (by simp)
  | ok v1 =>
    have hv1 : v1 = v := foldlM_nonObj ignoredStep ignoredStep_nonObj ign v v1 hv h1
    rw [h1, exceptBindOk, hv1] at h
    cases h2 : List.foldlM noneDefaultStep v nul with
    | error e => rw [h2, exceptBindErr] at h; exact absurd h (by simp)
    | ok v2 =>
      have hv2 : v2 = v :=
        foldlM_nonObj noneDefaultStep noneDefaultStep_nonObj nul v v2 hv h2
      rw [h2, exceptBindOk, hv2] at h
      exact foldlM_nonObj emptyListDefaultStep emptyListDefaultStep_nonObj emp
        v w hv h

theorem clean_ok_obj_inv (ign nul emp : List String) (v : Json) (d1 : Obj)
    (h : DictCleaner.clean ign nul emp v = .ok (Json.obj d1)) :
    ∃ d : Obj, v = Json.obj d ∧ d1 = DictCleaner.cleanObjRules ign nul emp d := by
  cases hv : v.isObj
  · have hw := clean_nonObj ign nul emp v (Json.obj d1) hv h
    rw [← hw] at hv
    simp [Json.isObj] at hv
  · cases v with
    | obj d =>
      refine ⟨d, rfl, ?_⟩
      rw [clean_obj_eq] at h
      exact (Json.obj.inj (Except.ok.inj h)).symm
    | null => simp [Json.isObj] at hv
    | bool b => simp [Json.isObj] at hv
    | num n => simp [Json.isObj] at hv
    | str s => simp [Json.isObj] at hv
    | arr xs => simp [Json.isObj] at hv

theorem clean_idem (ign nul emp : List String) (v w : Json)
    (h : DictCleaner.clean ign nul emp v = .ok w) :
    DictCleaner.clean ign nul emp w = .ok w := by
  cases hv : v.isObj
  · rw [clean_nonObj ign nul emp v w hv h]
    rw [clean_nonObj ign nul emp v w hv h] at h
    exact h
  · cases v with
    | obj d =>
      rw [clean_obj_eq] at h
      have hw : w = Json.obj (DictCleaner.cleanObjRules ign nul emp d) :=
        (Except.ok.inj h).symm
      rw [hw, clean_obj_eq, cleanObjRules_idem]
    | null => simp [Json.isObj] at hv
    | bool b => simp [Json.isObj] at hv
    | num n => simp [Json.isObj] at hv
    | str s => simp [Json.isObj] at hv
    | arr xs => simp [Json.isObj] at hv

theorem cd_not_in_ignored :
    "containerDefinitions" ∉ TaskDefinitionCleaner.keys_ignored := by decide

theorem cd_not_in_none_default :
    "containerDefinitions" ∉ TaskDefinitionCleaner.keys_none_default := by decide

theorem cd_not_in_empty_list_default :
    "containerDefinitions" ∉ TaskDefinitionCleaner.keys_empty_list_default := by
  decide

theorem pyGetItem_ok_inv (v : Json) (k : String) (x : Json)
    (h : pyGetItem v k = .ok x) :
    ∃ d : Obj, v = Json.obj d ∧ lookupKey d k = some x := by
  cases v with
  | obj d =>
    refine ⟨d, rfl, ?_⟩
    cases hl : lookupKey d k <;> simp [pyGetItem, hl] at h <;> simp_all
  | null => simp [pyGetItem] at h
  | bool b => simp [pyGetItem] at h
  | num n => simp [pyGetItem] at h
  | str s => simp [pyGetItem] at h
  | arr xs => simp [pyGetItem] at h

theorem lookupKey_cleanTask_cd (d : Obj) :
    lookupKey (DictCleaner.cleanObjRules TaskDefinitionCleaner.keys_ignored
        TaskDefinitionCleaner.keys_none_default
        TaskDefinitionCleaner.keys_empty_list_default d) "containerDefinitions"
      = lookupKey d "containerDefinitions" := by
  rw [lookupKey_cleanObjRules]
  simp [cd_not_in_ignored, cd_not_in_none_default, cd_not_in_empty_list_default]

theorem task_clean_ok_inv (v w : Json)
    (h : TaskDefinitionCleaner.clean v = .ok w) :
    ∃ (d : Obj) (cd : Json) (elems cleaned : List Json),
      v = Json.obj d ∧
      lookupKey d "containerDefinitions" = some cd ∧
      pyIter cd = .ok elems ∧
      TaskDefinitionCleaner.cleanContainerList elems = .ok cleaned ∧
      w = Json.obj (setKey
        (DictCleaner.cleanObjRules TaskDefinitionCleaner.keys_ignored
          TaskDefinitionCleaner.keys_none_default
          TaskDefinitionCleaner.keys_empty_list_default d)
        "containerDefinitions" (Json.arr cleaned)) := by
  rw [TaskDefinitionCleaner.clean] at h
  cases h1 : DictCleaner.clean TaskDefinitionCleaner.keys_ignored
      TaskDefinitionCleaner.keys_none_default
      TaskDefinitionCleaner.keys_empty_list_default v with
  | error e => rw [h1, exceptBindErr] at h; exact absurd h (by simp)
  | ok v1 =>
    rw [h1, exceptBindOk] at h
    cases h2 : pyGetItem v1 "containerDefinitions" with
    | error e => rw [h2, exceptBindErr] at h; exact absurd h (by simp)
    | ok cd =>
      rw [h2, exceptBindOk] at h
      obtain ⟨d1, hv1, hl1⟩ := pyGetItem_ok_inv v1 "containerDefinitions" cd h2
      obtain ⟨d, hv, hd1⟩ := clean_ok_obj_inv _ _ _ v d1 (hv1 ▸ h1)
      cases h3 : pyIter cd with
      | error e => rw [h3, exceptBindErr] at h; exact absurd h (by simp)
      | ok elems =>
        rw [h3, exceptBindOk] at h
        cases h4 : TaskDefinitionCleaner.cleanContainerList elems with
        | error e => rw [h4, exceptBindErr] at h; exact absurd h (by simp)
        | ok cleaned =>
          rw [h4, exceptBindOk] at h
          refine ⟨d, cd, elems, cleaned, hv, ?_, h3, h4, ?_⟩
          · rw [hd1] at hl1
            rw [← lookupKey_cleanTask_cd d]
            exact hl1
          · rw [hv1, hd1] at h
            simp [pySetItem] at h
            exact h.symm

theorem container_clean_idem (x y : Json)
    (h : ContainerDefinitionCleaner.clean x = .ok y) :
    ContainerDefinitionCleaner.clean y = .ok y := by
  rw [ContainerDefinitionCleaner.clean] at h ⊢
  exact clean_idem _ _ _ x y h

theorem cleanContainerList_idem (elems cleaned : List Json)
    (h : TaskDefinitionCleaner.cleanContainerList elems = .ok cleaned) :
    TaskDefinitionCleaner.cleanContainerList cleaned = .ok cleaned := by
  induction elems generalizing cleaned with
  | nil =>
    rw [TaskDefinitionCleaner.cleanContainerList] at h
    have : cleaned = [] := (Except.ok.inj h).symm
    rw [this]
    rfl
  | cons x t ih =>
    rw [TaskDefinitionCleaner.cleanContainerList] at h
    cases hx : ContainerDefinitionCleaner.clean x with
    | error e => rw [hx, exceptBindErr] at h; exact absurd h (by simp)
    | ok y =>
      rw [hx, exceptBindOk] at h
      cases ht : TaskDefinitionCleaner.cleanContainerList t with
      | error e => rw [ht, exceptBindErr] at h; exact absurd h (by simp)
      | ok ys =>
        rw [ht, exceptBindOk] at h
        have hc : cleaned = y :: ys := (Except.ok.inj h).symm
        rw [hc, TaskDefinitionCleaner.cleanContainerList,
          container_clean_idem x y hx, exceptBindOk, ih ys ht, exceptBindOk]
        rfl

theorem mem_top_ne_cd (keys : List String) (k : String)
    (hk : k ∈ keys) (hcd : "containerDefinitions" ∉ keys) :
    ¬ k = "containerDefinitions" := fun h => hcd (h ▸ hk)

theorem cleanObjRules_setKey_cd_self (d : Obj) (x : Json) :
    DictCleaner.cleanObjRules TaskDefinitionCleaner.keys_ignored
      TaskDefinitionCleaner.keys_none_default
      TaskDefinitionCleaner.keys_empty_list_default
      (setKey (DictCleaner.cleanObjRules TaskDefinitionCleaner.keys_ignored
        TaskDefinitionCleaner.keys_none_default
        TaskDefinitionCleaner.keys_empty_list_default d)
        "containerDefinitions" x)
    = setKey (DictCleaner.cleanObjRules TaskDefinitionCleaner.keys_ignored
        TaskDefinitionCleaner.keys_none_default
        TaskDefinitionCleaner.keys_empty_list_default d)
        "containerDefinitions" x := by
  apply cleanObjRules_self
  · intro k hk
    rw [lookupKey_setKey_ne _ _ _ _ (mem_top_ne_cd _ k hk cd_not_in_ignored)]
    exact lookupKey_cleanObjRules_of_ign _ _ _ d k hk
  · intro k hk
    rw [lookupKey_setKey_ne _ _ _ _ (mem_top_ne_cd _ k hk cd_not_in_none_default)]
    exact noneOptCheck_cleanObjRules _ _ _ d k hk
  · intro k hk
    rw [lookupKey_setKey_ne _ _ _ _
      (mem_top_ne_cd _ k hk cd_not_in_empty_list_default)]
    exact emptyListOptCheck_cleanObjRules _ _ _ d k hk

theorem task_clean_idem (v w : Json)
    (h : TaskDefinitionCleaner.clean v = .ok w) :
    TaskDefinitionCleaner.clean w = .ok w := by
  obtain ⟨d, cd, elems, cleaned, hv, hcd, hiter, hlist, hw⟩ :=
    task_clean_ok_inv v w h
  rw [hw, TaskDefinitionCleaner.clean, clean_obj_eq, exceptBindOk,
    cleanObjRules_setKey_cd_self]
  have hget : pyGetItem (Json.obj (setKey
      (DictCleaner.cleanObjRules TaskDefinitionCleaner.keys_ignored
        TaskDefinitionCleaner.keys_none_default
        TaskDefinitionCleaner.keys_empty_list_default d)
      "containerDefinitions" (Json.arr cleaned))) "containerDefinitions"
      = .ok (Json.arr cleaned) := by
    simp [pyGetItem, lookupKey_setKey_self]
  rw [hget, exceptBindOk]
  have hit : pyIter (Json.arr cleaned) = .ok cleaned := rfl
  rw [hit, exceptBindOk, cleanContainerList_idem elems cleaned hlist,
    exceptBindOk]
  simp [pySetItem, setKey_setKey]

/-- The condition under which the `containerDefinitions` access in
`TaskDefinitionCleaner.clean` raises: the key is absent (KeyError) or its
value cannot be iterated (TypeError). -/
def optNotIterable : Option Json → Bool
  | none => true
  | some v => v.isNotIterable

theorem isNone_iff (v : Json) : v.isNone = true ↔ v = Json.null := by
  cases v <;> simp [Json.isNone]

theorem isEmptyList_iff (v : Json) : v.isEmptyList = true ↔ v = Json.arr [] := by
  cases v with
  | arr xs => cases xs <;> simp [Json.isEmptyList]
  | null => simp [Json.isEmptyList]
  | bool b => simp [Json.isEmptyList]
  | num n => simp [Json.isEmptyList]
  | str s => simp [Json.isEmptyList]
  | obj d => simp [Json.isEmptyList]

theorem task_clean_err (d : Obj)
    (h : optNotIterable (lookupKey d "containerDefinitions") = true) :
    ∃ e, TaskDefinitionCleaner.clean (Json.obj d) = .error e := by
  rw [TaskDefinitionCleaner.clean, clean_obj_eq, exceptBindOk]
  cases hl : lookupKey d "containerDefinitions" with
  | none =>
    have hget : pyGetItem (Json.obj (DictCleaner.cleanObjRules
        TaskDefinitionCleaner.keys_ignored TaskDefinitionCleaner.keys_none_default
        TaskDefinitionCleaner.keys_empty_list_default d)) "containerDefinitions"
        = .error (PyErr.keyError "containerDefinitions") := by
      simp [pyGetItem, lookupKey_cleanTask_cd, hl]
    exact ⟨PyErr.keyError "containerDefinitions", by rw [hget, exceptBindErr]⟩
  | some vcd =>
    rw [hl] at h
    have hget : pyGetItem (Json.obj (DictCleaner.cleanObjRules
        TaskDefinitionCleaner.keys_ignored TaskDefinitionCleaner.keys_none_default
        TaskDefinitionCleaner.keys_empty_list_default d)) "containerDefinitions"
        = .ok vcd := by
      simp [pyGetItem, lookupKey_cleanTask_cd, hl]
    rw [hget, exceptBindOk]
    cases vcd with
    | null => exact ⟨PyErr.typeError, by rw [show pyIter Json.null =
        .error PyErr.typeError from rfl, exceptBindErr]⟩
    | bool b => exact ⟨PyErr.typeError, by rw [show pyIter (Json.bool b) =
        .error PyErr.typeError from rfl, exceptBindErr]⟩
    | num n => exact ⟨PyErr.typeError, by rw [show pyIter (Json.num n) =
        .error PyErr.typeError from rfl, exceptBindErr]⟩
    | str s => simp [optNotIterable, Json.isNotIterable] at h
    | arr xs => simp [optNotIterable, Json.isNotIterable] at h
    | obj q => simp [optNotIterable, Json.isNotIterable] at h

/-- Lexicographic order on strings by code point, as used by
`json.dumps(..., sort_keys=True)`. -/
def strLeChars : List Char → List Char → Bool
  | [], _ => true
  | _ :: _, [] => false
  | a :: as, b :: bs => if a = b then strLeChars as bs else decide (a < b)

/-- Insertion into a key-sorted association list. -/
def insertByKey (p : String × Json) : Obj → Obj
  | [] => [p]
  | q :: t =>
    if strLeChars p.1.toList q.1.toList then p :: q :: t else q :: insertByKey p t

/-- Sorting a record by key, modelling the key order of the canonical
serialization (`sort_keys=True`). -/
def sortByKey : Obj → Obj
  | [] => []
  | p :: t => insertByKey p (sortByKey t)

theorem processFile_ok_inv (parse : String → Option Json)
    (dumps : Json → String) (st : RunState) (p : String) (st1 : RunState)
    (h : processFile parse dumps st p = .ok st1)
    (hinv : st.changesMade = !st.writes.isEmpty) :
    st1.changesMade = !st1.writes.isEmpty := by
  rw [processFile] at h
  cases hr : readFS st.fs p with
  | none => rw [hr] at h; exact absurd h (by simp)
  | some content =>
    rw [hr] at h
    simp only [] at h
    cases hp : parse content with
    | none => rw [hp] at h; exact absurd h (by simp)
    | some taskDef =>
      rw [hp] at h
      simp only [] at h
      cases hc : TaskDefinitionCleaner.clean taskDef with
      | error e => rw [hc] at h; exact absurd h (by simp)
      | ok ctd =>
        rw [hc] at h
        simp only [] at h
        by_cases heq : dumps ctd = dumps taskDef
        · rw [if_neg (by simp [heq])] at h
          rw [← Except.ok.inj h]
          exact hinv
        · rw [if_pos heq] at h
          rw [← Except.ok.inj h]
          cases hw : st.writes <;> simp

theorem runMainAux_exited (parse : String → Option Json)
    (dumps : Json → String) (args : List String) :
    ∀ (st st1 : RunState) (code : Nat),
      runMainAux parse dumps args st = RunOutcome.exited st1 code →
      st.changesMade = !st.writes.isEmpty →
      st1.changesMade = !st1.writes.isEmpty ∧
        code = (if st1.changesMade then 1 else 0) := by
  induction args with
  | nil =>
    intro st st1 code h hinv
    rw [runMainAux] at h
    have h1 := RunOutcome.exited.inj h
    rw [← h1.1, ← h1.2]
    exact ⟨hinv, rfl⟩
  | cons p rest ih =>
    intro st st1 code h hinv
    rw [runMainAux] at h
    cases hpf : processFile parse dumps st p with
    | error e => rw [hpf] at h; exact absurd h (by simp)
    | ok stx =>
      rw [hpf] at h
      simp only [] at h
      exact ih stx st1 code h
        (processFile_ok_inv parse dumps st p stx hpf hinv)

theorem cleanObjRules_lookup_sub (t1 t2 t3 : List String) (q : Obj) (k : String)
    (v : Json) (h : lookupKey (DictCleaner.cleanObjRules t1 t2 t3 q) k = some v) :
    lookupKey q k = some v := by
  rw [lookupKey_cleanObjRules] at h
  by_cases c1 : k ∈ t1
  · simp [c1] at h
  · rw [if_neg c1] at h
    by_cases c2 : k ∈ t2 ∧ noneOptCheck (lookupKey q k) = true
    · simp [c2] at h
    · rw [if_neg c2] at h
      by_cases c3 : k ∈ t3 ∧ emptyListOptCheck (lookupKey q k) = true
      · simp [c3] at h
      · rw [if_neg c3] at h; exact h

theorem isNone_eq_false_iff (v : Json) : v.isNone = false ↔ ¬ v = Json.null := by
  rw [← isNone_iff]
  cases v.isNone <;> simp

theorem isEmptyList_eq_false_iff (v : Json) :
    v.isEmptyList = false ↔ ¬ v = Json.arr [] := by
  rw [← isEmptyList_iff]
  cases v.isEmptyList <;> simp

/-- C1 counterexample: the claim says pruning raises a StructuralError for
every non-sequence `containerDefinitions` value, including strings, but on
a document whose `containerDefinitions` is the string `""` pruning
succeeds and returns a pruned document (the string is iterated as an empty
sequence of characters). -/
theorem claim1_counterexample :
    TaskDefinitionCleaner.clean (Json.obj [("containerDefinitions", Json.str "")])
      = .ok (Json.obj [("containerDefinitions", Json.arr [])]) := rfl

/-- C1 (amended): document pruning raises an error whenever the top-level
record's `containerDefinitions` key is absent (KeyError) or its value is
`null`, a boolean, or a number (TypeError).  The original claim's further
assertion — an error for every non-sequence value — is refuted by the
counterexample: the string value `""` is iterated instead, yielding a
pruned document. -/
theorem claim1_amended (d : Obj)
    (h : optNotIterable (lookupKey d "containerDefinitions") = true) :
    ∃ e, TaskDefinitionCleaner.clean (Json.obj d) = .error e :=
  task_clean_err d h

/-- Witness for C1 (amended) at a record without `containerDefinitions`. -/
theorem claim1_witness :
    optNotIterable
      (lookupKey [("family", Json.str "x")] "containerDefinitions") = true ∧
    ∃ e, TaskDefinitionCleaner.clean
      (Json.obj [("family", Json.str "x")]) = .error e :=
  ⟨rfl, claim1_amended [("family", Json.str "x")] rfl⟩

/-- C2 counterexample: `tags` is in the top-level null-default set and is
present with value `[]` (not `null`), yet full pruning removes it, because
`tags` is also in the empty-sequence-default set. -/
theorem claim2_counterexample :
    lookupKey (DictCleaner.cleanObjRules TaskDefinitionCleaner.keys_ignored
      TaskDefinitionCleaner.keys_none_default
      TaskDefinitionCleaner.keys_empty_list_default
      [("tags", Json.arr [])]) "tags" = none ∧
    "tags" ∈ TaskDefinitionCleaner.keys_none_default ∧
    ¬ (Json.arr [] = Json.null) :=
  ⟨rfl, by decide, fun hx => Json.noConfusion hx⟩

/-- C2 (amended): for a key of the null-default set present in a record,
full pruning removes it iff its value is exactly `null`, or the key is also
in the ignored set, or the key is also in the empty-sequence-default set
with an empty-sequence value; otherwise (e.g. values `0`, `false`, `""`)
the key is retained with its value. -/
theorem claim2_amended (ign nul emp : List String) (d : Obj) (k : String)
    (v : Json) (hk : k ∈ nul) (hv : lookupKey d k = some v) :
    (lookupKey (DictCleaner.cleanObjRules ign nul emp d) k = none ↔
      (v = Json.null ∨ k ∈ ign ∨ (k ∈ emp ∧ v = Json.arr []))) ∧
    (¬ (v = Json.null ∨ k ∈ ign ∨ (k ∈ emp ∧ v = Json.arr [])) →
      lookupKey (DictCleaner.cleanObjRules ign nul emp d) k = some v) := by
  rw [lookupKey_cleanObjRules, hv]
  by_cases h1 : k ∈ ign
  · simp [h1]
  · by_cases h3 : k ∈ emp <;>
      cases hn : v.isNone <;> cases he : v.isEmptyList <;>
      simp_all [noneOptCheck, emptyListOptCheck, isNone_iff, isEmptyList_iff,
        isNone_eq_false_iff, isEmptyList_eq_false_iff]

/-- Witness for C2 (amended): a null-valued null-default key is removed. -/
theorem claim2_witness :
    (lookupKey (DictCleaner.cleanObjRules [] ["k"] [] [("k", Json.null)]) "k"
        = none ↔
      (Json.null = Json.null ∨ "k" ∈ ([] : List String) ∨
        ("k" ∈ ([] : List String) ∧ Json.null = Json.arr []))) ∧
    (¬ (Json.null = Json.null ∨ "k" ∈ ([] : List String) ∨
        ("k" ∈ ([] : List String) ∧ Json.null = Json.arr [])) →
      lookupKey (DictCleaner.cleanObjRules [] ["k"] [] [("k", Json.null)]) "k"
        = some Json.null) :=
  claim2_amended [] ["k"] [] [("k", Json.null)] "k" Json.null (by decide) rfl

/-- C3 counterexample: `tags` is in the top-level empty-sequence-default
set and is present with value `null` (not an empty sequence), yet full
pruning removes it, because `tags` is also in the null-default set. -/
theorem claim3_counterexample :
    lookupKey (DictCleaner.cleanObjRules TaskDefinitionCleaner.keys_ignored
      TaskDefinitionCleaner.keys_none_default
      TaskDefinitionCleaner.keys_empty_list_default
      [("tags", Json.null)]) "tags" = none ∧
    "tags" ∈ TaskDefinitionCleaner.keys_empty_list_default ∧
    ¬ (Json.null = Json.arr []) :=
  ⟨rfl, by decide, fun hx => Json.noConfusion hx⟩

/-- C3 (amended): for a key of the empty-sequence-default set present in a
record, full pruning removes it iff its value is exactly the empty sequence
`[]` (exact list type: a non-empty sequence, a string — even `""` — or any
other non-sequence value does not qualify), or the key is also in the
ignored set, or the key is also in the null-default set with value `null`;
otherwise the key is retained with its value. -/
theorem claim3_amended (ign nul emp : List String) (d : Obj) (k : String)
    (v : Json) (hk : k ∈ emp) (hv : lookupKey d k = some v) :
    (lookupKey (DictCleaner.cleanObjRules ign nul emp d) k = none ↔
      (v = Json.arr [] ∨ k ∈ ign ∨ (k ∈ nul ∧ v = Json.null))) ∧
    (¬ (v = Json.arr [] ∨ k ∈ ign ∨ (k ∈ nul ∧ v = Json.null)) →
      lookupKey (DictCleaner.cleanObjRules ign nul emp d) k = some v) := by
  rw [lookupKey_cleanObjRules, hv]
  by_cases h1 : k ∈ ign
  · simp [h1]
  · by_cases h2 : k ∈ nul <;>
      cases hn : v.isNone <;> cases he : v.isEmptyList <;>
      simp_all [noneOptCheck, emptyListOptCheck, isNone_iff, isEmptyList_iff,
        isNone_eq_false_iff, isEmptyList_eq_false_iff]

/-- Witness for C3 (amended): an empty-list-valued empty-sequence-default
key is removed. -/
theorem claim3_witness :
    (lookupKey (DictCleaner.cleanObjRules [] [] ["k"] [("k", Json.arr [])]) "k"
        = none ↔
      (Json.arr [] = Json.arr [] ∨ "k" ∈ ([] : List String) ∨
        ("k" ∈ ([] : List String) ∧ Json.arr [] = Json.null))) ∧
    (¬ (Json.arr [] = Json.arr [] ∨ "k" ∈ ([] : List String) ∨
        ("k" ∈ ([] : List String) ∧ Json.arr [] = Json.null)) →
      lookupKey (DictCleaner.cleanObjRules [] [] ["k"] [("k", Json.arr [])]) "k"
        = some (Json.arr [])) :=
  claim3_amended [] [] ["k"] [("k", Json.arr [])] "k" (Json.arr [])
    (by decide) rfl

/-- C4: a key that is in none of the three rule sets is never removed by
pruning, regardless of its value: its looked-up value is unchanged. -/
theorem claim4_unlisted_keys_kept (ign nul emp : List String) (d : Obj)
    (k : String) (h1 : k ∉ ign) (h2 : k ∉ nul) (h3 : k ∉ emp) :
    lookupKey (DictCleaner.cleanObjRules ign nul emp d) k = lookupKey d k := by
  rw [lookupKey_cleanObjRules]
  simp [h1, h2, h3]

/-- Witness for C4: `family` is in no top-level rule set, so even a `null`
value survives the full top-level pruning. -/
theorem claim4_witness :
    lookupKey (DictCleaner.cleanObjRules TaskDefinitionCleaner.keys_ignored
        TaskDefinitionCleaner.keys_none_default
        TaskDefinitionCleaner.keys_empty_list_default
        [("family", Json.null)]) "family"
      = lookupKey [("family", Json.null)] "family" :=
  claim4_unlisted_keys_kept TaskDefinitionCleaner.keys_ignored
    TaskDefinitionCleaner.keys_none_default
    TaskDefinitionCleaner.keys_empty_list_default
    [("family", Json.null)] "family" (by decide) (by decide) (by decide)

/-- C5: document pruning is idempotent — whenever pruning a document
succeeds, pruning the result again succeeds and returns it unchanged. -/
theorem claim5_idempotent (doc res : Json)
    (h : TaskDefinitionCleaner.clean doc = .ok res) :
    TaskDefinitionCleaner.clean res = .ok res :=
  task_clean_idem doc res h

/-- Witness for C5 at a minimal document. -/
theorem claim5_witness :
    TaskDefinitionCleaner.clean (Json.obj [("containerDefinitions", Json.arr [])])
      = .ok (Json.obj [("containerDefinitions", Json.arr [])]) :=
  claim5_idempotent (Json.obj [("containerDefinitions", Json.arr [])])
    (Json.obj [("containerDefinitions", Json.arr [])]) rfl

/-- C6: when a run of the driver completes normally, its exit code is 0
iff no file write was performed, and 1 iff at least one file was
rewritten. -/
theorem claim6_exit_code (parse : String → Option Json)
    (dumps : Json → String) (args : List String) (fs : FS)
    (st1 : RunState) (code : Nat)
    (h : runMain parse dumps args fs = RunOutcome.exited st1 code) :
    (code = 0 ↔ st1.writes = []) ∧ (code = 1 ↔ st1.writes ≠ []) := by
  obtain ⟨hinv, hcode⟩ := runMainAux_exited parse dumps args
    ⟨fs, false, []⟩ st1 code h rfl
  cases hcm : st1.changesMade
  · have hw : st1.writes = [] := by
      rw [hcm] at hinv
      cases hie : st1.writes.isEmpty
      · rw [hie] at hinv; simp at hinv
      · cases hww : st1.writes
        · rfl
        · rw [hww] at hie; simp at hie
    rw [hcode, hcm, hw]
    simp
  · have hw : ¬ st1.writes = [] := by
      intro hnil
      rw [hcm, hnil] at hinv
      simp at hinv
    rw [hcode, hcm]
    simp [hw]

/-- Witness for C6: a single already-clean file, no write, exit 0. -/
theorem claim6_witness :
    ((0 : Nat) = 0 ↔ (RunState.mk [("f", "x")] false []).writes = []) ∧
    ((0 : Nat) = 1 ↔ ¬ (RunState.mk [("f", "x")] false []).writes = []) :=
  claim6_exit_code
    (fun _ => some (Json.obj [("containerDefinitions", Json.arr [])]))
    (fun _ => "") ["f"] [("f", "x")] (RunState.mk [("f", "x")] false []) 0 rfl

/-- C7: when the next file's contents fail to parse as JSON, the run
crashes with a fatal parse error for that file, the file system and write
log are exactly as they were before that file was touched (in particular
the file itself is unwritten), and the process exit status is 1. -/
theorem claim7_parse_abort (parse : String → Option Json)
    (dumps : Json → String) (p : String) (rest : List String) (fs : FS)
    (b : Bool) (w : List (String × String)) (c : String)
    (h1 : readFS fs p = some c) (h2 : parse c = none) :
    runMainAux parse dumps (p :: rest) ⟨fs, b, w⟩
        = RunOutcome.crashed ⟨fs, b, w⟩ (Fatal.parseError p) ∧
      exitCode (runMainAux parse dumps (p :: rest) ⟨fs, b, w⟩) = 1 := by
  have hpf : processFile parse dumps ⟨fs, b, w⟩ p
      = .error (Fatal.parseError p) := by
    rw [processFile]
    simp [h1, h2]
  constructor
  · rw [runMainAux, hpf]
  · rw [runMainAux, hpf]
    rfl

/-- Witness for C7 on a one-file run whose contents do not parse. -/
theorem claim7_witness :
    runMainAux (fun _ => none) (fun _ => "") ["f"]
        ⟨[("f", "nonsense")], false, []⟩
        = RunOutcome.crashed ⟨[("f", "nonsense")], false, []⟩
          (Fatal.parseError "f") ∧
      exitCode (runMainAux (fun _ => none) (fun _ => "") ["f"]
        ⟨[("f", "nonsense")], false, []⟩) = 1 :=
  claim7_parse_abort (fun _ => none) (fun _ => "") "f" [] [("f", "nonsense")]
    false [] "nonsense" rfl rfl

/-- C8: the worked example — pruning removes `status` (ignored), `cpu`
(null default), `tags` (empty-sequence default) and the nested `essential`
and `portMappings`, keeping `family` and the cleaned container; sorting the
result's keys gives `containerDefinitions` before `family`, matching the
serialized form `{"containerDefinitions": [{"name": "c"}], "family": "x"}`. -/
theorem claim8_example :
    TaskDefinitionCleaner.clean (Json.obj [("status", Json.str "ACTIVE"),
        ("cpu", Json.null), ("tags", Json.arr []), ("family", Json.str "x"),
        ("containerDefinitions", Json.arr [Json.obj [("name", Json.str "c"),
          ("essential", Json.null), ("portMappings", Json.arr [])]])])
      = .ok (Json.obj [("family", Json.str "x"),
          ("containerDefinitions", Json.arr [Json.obj [("name", Json.str "c")]])]) ∧
    sortByKey [("family", Json.str "x"),
        ("containerDefinitions", Json.arr [Json.obj [("name", Json.str "c")]])]
      = [("containerDefinitions", Json.arr [Json.obj [("name", Json.str "c")]]),
         ("family", Json.str "x")] :=
  ⟨rfl, rfl⟩

/-- C9: pruning only deletes keys.  On any successfully pruned document:
any record pruned by the rules keeps the original value of every surviving
key; every surviving top-level key other than `containerDefinitions` maps
to its original value; and `containerDefinitions` is re-bound to the list
of the individually cleaned elements of the original value's iteration, in
order. -/
theorem claim9_frame (d d1 : Obj)
    (h : TaskDefinitionCleaner.clean (Json.obj d) = .ok (Json.obj d1)) :
    (∀ (t1 t2 t3 : List String) (q : Obj) (k : String) (v : Json),
        lookupKey (DictCleaner.cleanObjRules t1 t2 t3 q) k = some v →
        lookupKey q k = some v) ∧
    (∀ (k : String) (v : Json), ¬ k = "containerDefinitions" →
        lookupKey d1 k = some v → lookupKey d k = some v) ∧
    (∃ (cd : Json) (elems cleaned : List Json),
        lookupKey d "containerDefinitions" = some cd ∧
        pyIter cd = .ok elems ∧
        TaskDefinitionCleaner.cleanContainerList elems = .ok cleaned ∧
        lookupKey d1 "containerDefinitions" = some (Json.arr cleaned)) := by
  obtain ⟨d0, cd, elems, cleaned, hv, hcd, hiter, hlist, hw⟩ :=
    task_clean_ok_inv (Json.obj d) (Json.obj d1) h
  have hd0 : d = d0 := Json.obj.inj hv
  subst hd0
  have hd1 : d1 = setKey (DictCleaner.cleanObjRules
      TaskDefinitionCleaner.keys_ignored TaskDefinitionCleaner.keys_none_default
      TaskDefinitionCleaner.keys_empty_list_default d)
      "containerDefinitions" (Json.arr cleaned) := Json.obj.inj hw
  refine ⟨cleanObjRules_lookup_sub, ?_, cd, elems, cleaned, hcd, hiter, hlist, ?_⟩
  · intro k v hk hlk
    rw [hd1, lookupKey_setKey_ne _ _ _ _ hk] at hlk
    exact cleanObjRules_lookup_sub _ _ _ d k v hlk
  · rw [hd1, lookupKey_setKey_self]

/-- Witness for C9 at a minimal document. -/
theorem claim9_witness :
    (∀ (t1 t2 t3 : List String) (q : Obj) (k : String) (v : Json),
        lookupKey (DictCleaner.cleanObjRules t1 t2 t3 q) k = some v →
        lookupKey q k = some v) ∧
    (∀ (k : String) (v : Json), ¬ k = "containerDefinitions" →
        lookupKey [("containerDefinitions", Json.arr [])] k = some v →
        lookupKey [("containerDefinitions", Json.arr [])] k = some v) ∧
    (∃ (cd : Json) (elems cleaned : List Json),
        lookupKey [("containerDefinitions", Json.arr [])] "containerDefinitions"
          = some cd ∧
        pyIter cd = .ok elems ∧
        TaskDefinitionCleaner.cleanContainerList elems = .ok cleaned ∧
        lookupKey [("containerDefinitions", Json.arr [])] "containerDefinitions"
          = some (Json.arr cleaned)) :=
  claim9_frame [("containerDefinitions", Json.arr [])]
    [("containerDefinitions", Json.arr [])] rfl

/-- C10: invoked with no file paths, the driver touches nothing — the file
system is unchanged, no write is logged — and it exits with code 0. -/
theorem claim10_no_args (parse : String → Option Json)
    (dumps : Json → String) (fs : FS) :
    runMain parse dumps [] fs = RunOutcome.exited ⟨fs, false, []⟩ 0 := rfl
